import Mathlib

/-!
Verification of the Vollara product-catalog backend (src/main.py) against its
natural-language specification.  The Python code is shallowly embedded: pure
helpers become Lean functions on lists of characters and strings, documents
become association lists of BSON-like values, and the store (the MongoDB
collection reached through the database module, which is not part of the
sources) is modelled from the spec as an explicit list of documents threaded
through each handler.  Definitions come first, then the theorems.
-/

set_option autoImplicit false

namespace Vollara

/-! ## Python string primitives used by the slug pipeline

str.lower (ASCII range), str.strip (Python whitespace set, ASCII part),
str.replace of a space by a hyphen (single-character pattern, so a character
map) and str.replace of an ampersand by the word and (single-character
pattern, so a character expansion). -/

/-- Python str.lower on one character (ASCII letters). -/
def pyLowerChar (c : Char) : Char :=
  if 65 ≤ c.toNat && c.toNat ≤ 90 then Char.ofNat (c.toNat + 32) else c

/-- Python str.lower. -/
def pyLower (s : List Char) : List Char :=
  s.map pyLowerChar

/-- Membership in Python's default str.strip whitespace set (ASCII part). -/
def isPyWhitespace (c : Char) : Bool :=
  c = ' ' || c = '\t' || c = '\n' || c = '\r' || c = '\x0b' || c = '\x0c'

/-- Python str.strip with no argument: drop leading and trailing whitespace. -/
def pyStrip (s : List Char) : List Char :=
  ((s.dropWhile isPyWhitespace).reverse.dropWhile isPyWhitespace).reverse

/-- Python str.replace of a space by a hyphen: the pattern is one character,
so this is a map. -/
def replaceSpaceByHyphen (s : List Char) : List Char :=
  s.map (fun c => if c = ' ' then '-' else c)

/-- Python str.replace of an ampersand by the word and: the pattern is one
character, so each ampersand expands to three characters. -/
def replaceAmpByAnd (s : List Char) : List Char :=
  s.flatMap (fun c => if c = '&' then ['a', 'n', 'd'] else [c])

/-- The slug expression of src/main.py lines 188-190:
title.lower().strip().replace(space, hyphen).replace(ampersand, and). -/
def derivedSlug (title : String) : String :=
  String.mk (replaceAmpByAnd (replaceSpaceByHyphen (pyStrip (pyLower title.data))))

/-- The slug derivation rule as worded by the spec (section 4.3): lower-case the
title, trim leading/trailing whitespace, replace every space character with a
hyphen, replace every literal ampersand character with the word and. -/
def specSlugRule (title : String) : String :=
  let lowered := pyLower title.data
  let trimmed := pyStrip lowered
  let hyphenated := replaceSpaceByHyphen trimmed
  String.mk (replaceAmpByAnd hyphenated)

/-! ## BSON ObjectId (the store-native identifier type)

src/main.py imports ObjectId from the bson package.  An ObjectId is 12 bytes;
constructing one from a string requires the string to have length 24 and to
parse under bytes.fromhex (hex digits in either case), raising InvalidId
otherwise; str of an ObjectId renders the bytes as lowercase hex.  We model
bytes.fromhex on space-free input: strict pairs of hex digits. -/

/-- Value of one hex digit as accepted by bytes.fromhex: 0-9, a-f, A-F. -/
def hexDigitValue (c : Char) : Option Nat :=
  if 48 ≤ c.toNat && c.toNat ≤ 57 then some (c.toNat - 48)
  else if 97 ≤ c.toNat && c.toNat ≤ 102 then some (c.toNat - 87)
  else if 65 ≤ c.toNat && c.toNat ≤ 70 then some (c.toNat - 55)
  else none

/-- Canonical (lowercase) hex digits: the alphabet that str of an ObjectId
ever produces. -/
def isCanonHexDigit (c : Char) : Bool :=
  (48 ≤ c.toNat && c.toNat ≤ 57) || (97 ≤ c.toNat && c.toNat ≤ 102)

/-- bytes.fromhex on a space-free string: consume strict pairs of hex digits. -/
def parseHexBytes : List Char → Option (List Nat)
  | [] => some []
  | [_] => none
  | c1 :: c2 :: rest =>
    match hexDigitValue c1, hexDigitValue c2, parseHexBytes rest with
    | some h, some l, some bs => some ((16 * h + l) :: bs)
    | _, _, _ => none

/-- Lowercase hex rendering of one digit value. -/
def hexDigitChar (n : Nat) : Char :=
  if n < 10 then Char.ofNat (48 + n) else Char.ofNat (87 + n)

/-- Lowercase hex rendering of a byte string, as binascii.hexlify. -/
def renderHexBytes (bs : List Nat) : List Char :=
  bs.flatMap (fun b => [hexDigitChar (b / 16), hexDigitChar (b % 16)])

/-- A store-native identifier: 12 bytes. -/
structure ObjectId where
  bytes : List Nat
  hlen : bytes.length = 12
  hlt : ∀ b ∈ bytes, b < 256

instance : DecidableEq ObjectId := fun a b =>
  if h : a.bytes = b.bytes then
    isTrue (by cases a; cases b; simp only at h; subst h; rfl)
  else
    isFalse (fun hh => h (congrArg ObjectId.bytes hh))

/-- str of an ObjectId: the 24 lowercase hex characters of its bytes. -/
def oidToString (o : ObjectId) : String :=
  String.mk (renderHexBytes o.bytes)

/-- bson ObjectId construction from a string: valid iff the string has length
24 and parses as hex; InvalidId (here: none) otherwise.  The two inner guards
always hold for a 24-character hex parse and are discharged by theorems
below. -/
def parseObjectId (s : String) : Option ObjectId :=
  if s.data.length = 24 then
    match parseHexBytes s.data with
    | some bs =>
      if h1 : bs.length = 12 then
        if h2 : ∀ b ∈ bs, b < 256 then some ⟨bs, h1, h2⟩ else none
      else none
    | none => none
  else none

/-! ## Documents: BSON-like values and Python dict operations -/

/-- A stored value: null, boolean, number, string, ObjectId, array or
sub-document. -/
inductive BVal where
  | vNull : BVal
  | vBool : Bool → BVal
  | vNum : Rat → BVal
  | vStr : String → BVal
  | vOid : ObjectId → BVal
  | vList : List BVal → BVal
  | vDoc : List (String × BVal) → BVal

/-- A document: a Python dict, i.e. an ordered association list. -/
abbrev Doc := List (String × BVal)

mutual

/-- Structural equality test on stored values. -/
def bvalBeq : BVal → BVal → Bool
  | .vNull, .vNull => true
  | .vBool a, .vBool b => a == b
  | .vNum a, .vNum b => a == b
  | .vStr a, .vStr b => a == b
  | .vOid a, .vOid b => decide (a = b)
  | .vList xs, .vList ys => bvalListBeq xs ys
  | .vDoc xs, .vDoc ys => bvalDocBeq xs ys
  | _, _ => false

/-- Structural equality test on arrays of stored values. -/
def bvalListBeq : List BVal → List BVal → Bool
  | [], [] => true
  | x :: xs, y :: ys => bvalBeq x y && bvalListBeq xs ys
  | _, _ => false

/-- Structural equality test on documents. -/
def bvalDocBeq : Doc → Doc → Bool
  | [], [] => true
  | (k1, v1) :: xs, (k2, v2) :: ys => k1 == k2 && bvalBeq v1 v2 && bvalDocBeq xs ys
  | _, _ => false

end

/-- Python dict.get: value at the key, if present. -/
def dictGet (d : Doc) (k : String) : Option BVal :=
  (d.find? (fun kv => kv.1 == k)).map (fun kv => kv.2)

/-- Python dict.pop: the dict without the key (keys in a dict are unique, so
filtering all occurrences agrees with removing the one occurrence). -/
def dictRemove (d : Doc) (k : String) : Doc :=
  d.filter (fun kv => !(kv.1 == k))

/-- Python dict key assignment: update in place when present, append at the
end otherwise. -/
def dictSet (d : Doc) (k : String) (v : BVal) : Doc :=
  if d.any (fun kv => kv.1 == k) then
    d.map (fun kv => if kv.1 == k then (k, v) else kv)
  else d ++ [(k, v)]

/-- Python truthiness of a stored value. -/
def truthy : BVal → Bool
  | .vNull => false
  | .vBool b => b
  | .vNum q => decide (q ≠ 0)
  | .vStr s => !(s == "")
  | .vOid _ => true
  | .vList xs => !xs.isEmpty
  | .vDoc fs => !fs.isEmpty

/-- Python str() applied to a stored value.  The handlers only ever apply it
to ObjectId values (the primary key and top-level ObjectId fields); the other
clauses approximate the Python renderings and are unreached by the modelled
code paths. -/
def pyStr : BVal → String
  | .vNull => "None"
  | .vBool b => if b then "True" else "False"
  | .vNum q => toString q.num ++ "/" ++ toString q.den
  | .vStr s => s
  | .vOid o => oidToString o
  | .vList _ => "[...]"
  | .vDoc _ => "..."

/-- The per-field action of the loop in _serialize (src/main.py lines 42-44):
a top-level ObjectId value is stringified, every other value — including
arrays and sub-documents, whatever they contain — is kept as it is. -/
def stringifyTop : BVal → BVal
  | .vOid o => .vStr (oidToString o)
  | v => v

/-- The body of _serialize on a truthy dict (src/main.py lines 38-45): when
the value at the primary key is truthy, pop it and assign its str form under
the key id; then stringify top-level ObjectId values. -/
def serializeCore (d : Doc) : Doc :=
  let renamed :=
    match dictGet d "_id" with
    | some v => if truthy v then dictSet (dictRemove d "_id") "id" (.vStr (pyStr v)) else d
    | none => d
  renamed.map (fun kv => (kv.1, stringifyTop kv.2))

/-- _serialize applied to a dict: a falsy (empty) dict is returned as it is. -/
def serializeDict (d : Doc) : Doc :=
  if d.isEmpty then d else serializeCore d

/-- _serialize (src/main.py lines 35-45): None is returned as it is. -/
def pySerialize : Option Doc → Option Doc
  | none => none
  | some d => some (serializeDict d)

/-! ## Store operations (modelled from the spec: database.py is not under
src/) and the HTTP handlers -/

/-- An equality-conjunction filter: key, exact value. -/
abbrev QueryFilter := List (String × BVal)

/-- A document matches a filter when every filter entry equals the value the
document holds at that key. -/
def matchesFilter (d : Doc) (filt : QueryFilter) : Bool :=
  filt.all (fun kv =>
    match dictGet d kv.1 with
    | some v => bvalBeq v kv.2
    | none => false)

/-- Modelled from the spec: the findOne operation of the store adapter
(database.py is not under src/) returns the first record matching the
equality-conjunction filter, or an explicit not-found signal. -/
def findOne (store : List Doc) (filt : QueryFilter) : Option Doc :=
  store.find? (fun d => matchesFilter d filt)

/-- Modelled from the spec: get_documents / find of the store adapter
(database.py is not under src/) returns the records matching the
equality-conjunction filter, bounded by the optional limit. -/
def get_documents (store : List Doc) (filt : QueryFilter) (limit : Option Nat) :
    List Doc :=
  let matched := store.filter (fun d => matchesFilter d filt)
  match limit with
  | none => matched
  | some n => matched.take n

/-- Outcome of a request handler: a value, or an HTTPException with a status
code and a detail string. -/
inductive ApiResult (α : Type) where
  | ok : α → ApiResult α
  | httpError : Nat → String → ApiResult α

/-- GET /api/products (src/main.py lines 157-166).  The category entry is
added to the filter only when the parameter is truthy — neither None nor the
empty string; any store failure becomes a 500 with the error text. -/
def list_products (store : Except String (List Doc)) (limit : Option Nat)
    (category : Option String) : ApiResult (List Doc) :=
  match store with
  | .error e => .httpError 500 e
  | .ok docs =>
    let filter_q : QueryFilter :=
      match category with
      | some c => if c == "" then [] else [("category", .vStr c)]
      | none => []
    .ok ((get_documents docs filter_q limit).map serializeDict)

/-- GET /api/products/slug (src/main.py lines 169-179): find_one on the slug,
a 404 when the result is falsy, the serialized record otherwise; the 404 is
re-raised past the generic handler, and only a store failure becomes a 500. -/
def get_product (store : Except String (List Doc)) (slug : String) :
    ApiResult Doc :=
  match store with
  | .error e => .httpError 500 e
  | .ok docs =>
    match findOne docs [("slug", .vStr slug)] with
    | none => .httpError 404 "Product not found"
    | some d =>
      if d.isEmpty then .httpError 404 "Product not found" else .ok (serializeDict d)

/-! ## The product input model and POST /api/products -/

/-- The pydantic input model ProductIn (src/main.py lines 22-32) after request
validation; the field defaults mirror the class defaults. -/
structure ProductIn where
  title : String
  description : Option String := none
  price : Rat
  category : String
  in_stock : Bool := true
  sku : Option String := none
  images : Option (List String) := none
  features : Option (List String) := none
  slug : Option String := none
  brand : Option String := some "Vollara"

/-- A raw JSON body for POST /api/products with field presence explicit: none
is an entirely absent field, some none an explicit JSON null, some of a value
a supplied value.  Type errors are rejected by pydantic before this point and
are outside the model; fields typed without Optional cannot carry null. -/
structure RawProductIn where
  title : Option String := none
  description : Option (Option String) := none
  price : Option Rat := none
  category : Option String := none
  in_stock : Option Bool := none
  sku : Option (Option String) := none
  images : Option (Option (List String)) := none
  features : Option (Option (List String)) := none
  slug : Option (Option String) := none
  brand : Option (Option String) := none

/-- pydantic validation of the request body against ProductIn: the required
fields must be present; an absent optional field takes the class default; an
explicit null stays None and in particular is not replaced by the default. -/
def parseProductIn (raw : RawProductIn) : Except (List String) ProductIn :=
  match raw.title, raw.price, raw.category with
  | some t, some p, some c =>
    .ok { title := t,
          description := raw.description.join,
          price := p,
          category := c,
          in_stock := raw.in_stock.getD true,
          sku := raw.sku.join,
          images := raw.images.join,
          features := raw.features.join,
          slug := raw.slug.join,
          brand := match raw.brand with | none => some "Vollara" | some b => b }
  | _, _, _ =>
    .error ((if raw.title.isNone then ["title"] else []) ++
            (if raw.price.isNone then ["price"] else []) ++
            (if raw.category.isNone then ["category"] else []))

/-- Modelled from the spec: the Product model of schemas.py (not under src/)
validates the required fields before any store interaction — title a
non-empty string, price a non-negative number, category a non-empty string —
and the offending fields are listed. -/
def productSchemaCheck (p : ProductIn) : List String :=
  (if p.title = "" then ["title"] else []) ++
  (if p.price < 0 then ["price"] else []) ++
  (if p.category = "" then ["category"] else [])

/-- Modelled from the spec: constructing the schemas.Product model raises a
ValidationError listing the offending fields when a required-field constraint
fails. -/
def productSchemaValidate (p : ProductIn) : Except (List String) ProductIn :=
  if productSchemaCheck p = [] then .ok p else .error (productSchemaCheck p)

/-- The str form of a raised ValidationError, as caught by the handlers. -/
def validationMessage (fields : List String) : String :=
  "ValidationError: " ++ String.intercalate ", " fields

/-- The ensure-slug step of create_product (src/main.py lines 185-190):
data.get of slug is falsy when the field is None or the empty string, and in
both cases the slug is derived from the title. -/
def ensureSlug (p : ProductIn) : ProductIn :=
  match p.slug with
  | none => { p with slug := some (derivedSlug p.title) }
  | some s => if s == "" then { p with slug := some (derivedSlug p.title) } else p

/-- An optional string as stored. -/
def optStrVal : Option String → BVal
  | none => .vNull
  | some s => .vStr s

/-- An optional list of strings as stored. -/
def optStrListVal : Option (List String) → BVal
  | none => .vNull
  | some xs => .vList (xs.map BVal.vStr)

/-- Modelled from the spec: create_document of database.py (not under src/)
inserts the validated record into the collection with the store-assigned
primary key and returns the new identifier in string form. -/
def toStoredDoc (p : ProductIn) (oid : ObjectId) : Doc :=
  [("_id", .vOid oid),
   ("title", .vStr p.title),
   ("description", optStrVal p.description),
   ("price", .vNum p.price),
   ("category", .vStr p.category),
   ("in_stock", .vBool p.in_stock),
   ("sku", optStrVal p.sku),
   ("images", optStrListVal p.images),
   ("features", optStrListVal p.features),
   ("slug", optStrVal p.slug),
   ("brand", optStrVal p.brand)]

/-- POST /api/products (src/main.py lines 182-195): ensure the slug, build the
schema model (which validates), insert, parse the returned id string back to
an ObjectId, re-fetch by primary key and serialize.  The store-assigned
identifier is the newOid parameter; a raised error is caught and becomes a
500 carrying the error text.  The result pairs the final collection state
with the response. -/
def create_product (store : List Doc) (product : ProductIn) (newOid : ObjectId) :
    List Doc × ApiResult (Option Doc) :=
  let data := ensureSlug product
  match productSchemaValidate data with
  | .error fields => (store, .httpError 500 (validationMessage fields))
  | .ok d =>
    let store2 := store ++ [toStoredDoc d newOid]
    let pid := oidToString newOid
    match parseObjectId pid with
    | some oid2 => (store2, .ok (pySerialize (findOne store2 [("_id", .vOid oid2)])))
    | none => (store2, .httpError 500 "InvalidId")

/-! ## Startup seeding -/

/-- The three sample products of seed_products (src/main.py lines 103-149);
the fields not passed take the ProductIn class defaults. -/
def sampleProducts : List ProductIn :=
  [{ title := "Air & Surface Pro",
     slug := some "air-and-surface-pro",
     description := some "Advanced active air and surface purification for homes and businesses.",
     price := 799,
     category := "Air Purifier",
     images := some ["https://images.unsplash.com/photo-1582719478250-c89cae4dc85b?w=1200&q=80&auto=format&fit=crop"],
     features := some ["ActivePure Technology", "Covers large areas", "Whisper-quiet operation"] },
   { title := "FreshAir Personal",
     slug := some "freshair-personal",
     description := some "Wearable personal air purifier for on-the-go protection.",
     price := 199,
     category := "Wearable",
     images := some ["https://images.unsplash.com/photo-1505740106531-4243f3831c78?w=1200&q=80&auto=format&fit=crop"],
     features := some ["Lightweight and portable", "USB rechargeable", "Personal clean-air zone"] },
   { title := "Hydration System",
     slug := some "living-water",
     description := some "At-home water ionization and filtration for better-tasting water.",
     price := 1299,
     category := "Water",
     images := some ["https://images.unsplash.com/photo-1548839140-29a749e1cf4d?w=1200&q=80&auto=format&fit=crop"],
     features := some ["Multiple pH levels", "Advanced filtration", "Easy-install countertop"] }]

/-- Environment of the startup seeding routine: whether db is available,
whether count_documents raises, at which insert (if any) create_document
raises, and the current collection content. -/
structure SeedEnv where
  dbConnected : Bool
  countFails : Bool
  insertFailsAt : Option Nat
  docs : List Doc

/-- The insert loop of seed_products: each sample goes through the schema
model and is inserted; a create_document failure (modelled by the failAt
index) or a ValidationError raises, which stops the loop and leaves the
documents inserted so far. -/
def runSeedInserts : List Doc → List (ProductIn × ObjectId) → Option Nat → Nat → List Doc
  | docs, [], _, _ => docs
  | docs, (p, oid) :: rest, failAt, idx =>
    if failAt == some idx then docs
    else
      match productSchemaValidate p with
      | .error _ => docs
      | .ok d => runSeedInserts (docs ++ [toStoredDoc d oid]) rest failAt (idx + 1)

/-- Startup seeding (src/main.py lines 96-154): return immediately when db is
None; insert the samples when the collection counts zero documents; any
exception from the check or the inserts is swallowed, so the routine always
returns a collection state and never blocks startup. -/
def seed_products (env : SeedEnv) (oids : List ObjectId) : List Doc :=
  if !env.dbConnected then env.docs
  else if env.countFails then env.docs
  else if env.docs.length == 0 then
    runSeedInserts env.docs (sampleProducts.zip oids) env.insertFailsAt 0
  else env.docs

/-! ## Concrete values used by witnesses and counterexamples -/

/-- A concrete ObjectId. -/
def oidEx1 : ObjectId :=
  ⟨[0, 1, 2, 3, 4, 5, 6, 7, 8, 9, 10, 11], by decide, by decide⟩

/-- A second concrete ObjectId. -/
def oidEx2 : ObjectId :=
  ⟨[12, 13, 14, 15, 16, 17, 18, 19, 20, 21, 22, 23], by decide, by decide⟩

/-- A third concrete ObjectId. -/
def oidEx3 : ObjectId :=
  ⟨[24, 25, 26, 27, 28, 29, 30, 31, 32, 33, 34, 35], by decide, by decide⟩

/-- The ObjectId denoted by the uppercase hex string used against the
round-trip claim. -/
def oidUpperEx : ObjectId :=
  ⟨[170, 187, 204, 221, 238, 255, 0, 17, 34, 51, 68, 85], by decide, by decide⟩

/-- The document used against the deep-scan part of the serialization claim:
its primary key holds an identifier and a sub-document holds another one. -/
def nestedDocEx : Doc :=
  [("_id", .vOid oidEx1), ("related", .vDoc [("ref", .vOid oidEx2)])]

/-- A minimal valid raw request body: only the required fields are present. -/
def rawInputEx : RawProductIn :=
  { title := some "Probe", price := some 5, category := some "Cat" }

/-- The parse of rawInputEx: every optional field at its class default. -/
def parsedInputEx : ProductIn :=
  { title := "Probe", price := 5, category := "Cat" }

/-- An input violating the validation rules: empty title. -/
def badInputEx : ProductIn :=
  { title := "", price := 1, category := "Cat" }

/-- A valid input that supplies the slug as the empty string. -/
def emptySlugInputEx : ProductIn :=
  { title := "Hydration System", price := 1, category := "Water", slug := some "" }

/-! ## Theorems -/

theorem hexDigitValue_lt {c : Char} {h : Nat} (hc : hexDigitValue c = some h) :
    h < 16 := by
  unfold hexDigitValue at hc
  split_ifs at hc with h1 h2 h3 <;>
    simp only [Bool.and_eq_true, decide_eq_true_eq, Option.some.injEq] at * <;>
    omega

theorem parseHexBytes_cons {c1 c2 : Char} {rest : List Char} {h l : Nat} {bs : List Nat}
    (h1 : hexDigitValue c1 = some h) (h2 : hexDigitValue c2 = some l)
    (h3 : parseHexBytes rest = some bs) :
    parseHexBytes (c1 :: c2 :: rest) = some ((16 * h + l) :: bs) := by
  simp only [parseHexBytes, h1, h2, h3]

theorem parseHexBytes_cons_none {c1 c2 : Char} {rest : List Char}
    (hno : ∀ (h l : Nat) (bs : List Nat),
      hexDigitValue c1 = some h → hexDigitValue c2 = some l →
      parseHexBytes rest = some bs → False) :
    parseHexBytes (c1 :: c2 :: rest) = none := by
  show (match hexDigitValue c1, hexDigitValue c2, parseHexBytes rest with
    | some h, some l, some bs => some ((16 * h + l) :: bs)
    | _, _, _ => none) = none
  cases hv1 : hexDigitValue c1 with
  | none => rfl
  | some h =>
    cases hv2 : hexDigitValue c2 with
    | none => rfl
    | some l =>
      cases hr : parseHexBytes rest with
      | none => rfl
      | some bs => exact (hno h l bs hv1 hv2 hr).elim

theorem parseHexBytes_lt {cs : List Char} {bs : List Nat}
    (hp : parseHexBytes cs = some bs) : ∀ b ∈ bs, b < 256 := by
  induction cs using parseHexBytes.induct generalizing bs with
  | case1 =>
    simp only [parseHexBytes, Option.some.injEq] at hp
    subst hp
    intro b hb; cases hb
  | case2 c =>
    simp only [parseHexBytes] at hp
    exact Option.noConfusion hp
  | case3 c1 c2 rest h l bs0 h3 h2 h1 ih =>
    rw [parseHexBytes_cons h1 h2 h3] at hp
    cases hp
    intro b hb
    rcases List.mem_cons.mp hb with hb | hb
    · have hv1 := hexDigitValue_lt h1
      have hv2 := hexDigitValue_lt h2
      omega
    · exact ih h3 b hb
  | case4 c1 c2 rest hno ih =>
    rw [parseHexBytes_cons_none hno] at hp
    cases hp

theorem parseHexBytes_length {cs : List Char} {bs : List Nat}
    (hp : parseHexBytes cs = some bs) : cs.length = 2 * bs.length := by
  induction cs using parseHexBytes.induct generalizing bs with
  | case1 =>
    simp only [parseHexBytes, Option.some.injEq] at hp
    subst hp; rfl
  | case2 c =>
    simp only [parseHexBytes] at hp
    exact Option.noConfusion hp
  | case3 c1 c2 rest h l bs0 h3 h2 h1 ih =>
    rw [parseHexBytes_cons h1 h2 h3] at hp
    cases hp
    have := ih h3
    simp only [List.length_cons]
    omega
  | case4 c1 c2 rest hno ih =>
    rw [parseHexBytes_cons_none hno] at hp
    cases hp

theorem hexDigitValue_hexDigitChar : ∀ n < 16, hexDigitValue (hexDigitChar n) = some n := by
  decide

theorem hexDigitChar_hexDigitValue {c : Char} {h : Nat}
    (hv : hexDigitValue c = some h) (hcanon : isCanonHexDigit c = true) :
    hexDigitChar h = c := by
  unfold hexDigitValue at hv
  unfold isCanonHexDigit at hcanon
  unfold hexDigitChar
  simp only [Bool.or_eq_true, Bool.and_eq_true, decide_eq_true_eq] at hcanon
  split_ifs at hv with h1 h2 h3
  · simp only [Bool.and_eq_true, decide_eq_true_eq] at h1
    obtain rfl := Option.some.inj hv
    have hlt : c.toNat - 48 < 10 := by omega
    rw [if_pos hlt]
    have heq : 48 + (c.toNat - 48) = c.toNat := by omega
    rw [heq, Char.ofNat_toNat]
  · simp only [Bool.and_eq_true, decide_eq_true_eq] at h2
    obtain rfl := Option.some.inj hv
    have hge : ¬ (c.toNat - 87 < 10) := by omega
    rw [if_neg hge]
    have heq : 87 + (c.toNat - 87) = c.toNat := by omega
    rw [heq, Char.ofNat_toNat]
  · simp only [Bool.and_eq_true, decide_eq_true_eq] at h1 h2 h3
    omega

theorem parseHexBytes_renderHexBytes {bs : List Nat} (hb : ∀ b ∈ bs, b < 256) :
    parseHexBytes (renderHexBytes bs) = some bs := by
  induction bs with
  | nil => rfl
  | cons b tl ih =>
    have hblt : b < 256 := hb b (List.mem_cons_self b tl)
    have hhi : b / 16 < 16 := by omega
    have hlo : b % 16 < 16 := by omega
    have htl : parseHexBytes (renderHexBytes tl) = some tl :=
      ih (fun x hx => hb x (List.mem_cons_of_mem b hx))
    have hrw : renderHexBytes (b :: tl) =
        hexDigitChar (b / 16) :: hexDigitChar (b % 16) :: renderHexBytes tl := rfl
    rw [hrw, parseHexBytes_cons (hexDigitValue_hexDigitChar _ hhi)
      (hexDigitValue_hexDigitChar _ hlo) htl]
    have hbeq : 16 * (b / 16) + b % 16 = b := by omega
    rw [hbeq]

theorem renderHexBytes_parseHexBytes {cs : List Char} {bs : List Nat}
    (hp : parseHexBytes cs = some bs)
    (hcanon : ∀ c ∈ cs, isCanonHexDigit c = true) :
    renderHexBytes bs = cs := by
  induction cs using parseHexBytes.induct generalizing bs with
  | case1 =>
    simp only [parseHexBytes, Option.some.injEq] at hp
    subst hp; rfl
  | case2 c =>
    simp only [parseHexBytes] at hp
    exact Option.noConfusion hp
  | case3 c1 c2 rest h l bs0 h3 h2 h1 ih =>
    rw [parseHexBytes_cons h1 h2 h3] at hp
    cases hp
    have hc1 : isCanonHexDigit c1 = true := hcanon c1 (by simp)
    have hc2 : isCanonHexDigit c2 = true := hcanon c2 (by simp)
    have hrest := ih h3 (fun c hc => hcanon c (by simp [hc]))
    have hv1 := hexDigitValue_lt h1
    have hv2 := hexDigitValue_lt h2
    have hrw : renderHexBytes ((16 * h + l) :: bs0) =
        hexDigitChar ((16 * h + l) / 16) :: hexDigitChar ((16 * h + l) % 16) ::
          renderHexBytes bs0 := rfl
    have hdiv : (16 * h + l) / 16 = h := by omega
    have hmod : (16 * h + l) % 16 = l := by omega
    rw [hrw, hdiv, hmod, hexDigitChar_hexDigitValue h1 hc1, hexDigitChar_hexDigitValue h2 hc2,
      hrest]
  | case4 c1 c2 rest hno ih =>
    rw [parseHexBytes_cons_none hno] at hp
    cases hp

theorem parseObjectId_oidToString (o : ObjectId) :
    parseObjectId (oidToString o) = some o := by
  unfold parseObjectId oidToString
  have hp : parseHexBytes (String.mk (renderHexBytes o.bytes)).data = some o.bytes :=
    parseHexBytes_renderHexBytes o.hlt
  have hlen : (String.mk (renderHexBytes o.bytes)).data.length = 24 := by
    have := parseHexBytes_length hp
    rw [this, o.hlen]
  rw [if_pos hlen]
  split
  · rename_i bs heq
    rw [hp] at heq
    cases heq
    rw [dif_pos o.hlen, dif_pos o.hlt]
  · rename_i heq
    rw [hp] at heq
    exact Option.noConfusion heq

theorem oidToString_parseObjectId {s : String} {o : ObjectId}
    (hp : parseObjectId s = some o)
    (hcanon : ∀ c ∈ s.data, isCanonHexDigit c = true) :
    oidToString o = s := by
  unfold parseObjectId at hp
  by_cases hl : s.data.length = 24
  · rw [if_pos hl] at hp
    revert hp
    split
    · rename_i bs heq
      intro hp
      split_ifs at hp with h1 h2
      cases hp
      unfold oidToString
      show String.mk (renderHexBytes bs) = s
      rw [renderHexBytes_parseHexBytes heq hcanon]
    · intro hp
      exact Option.noConfusion hp
  · rw [if_neg hl] at hp
    exact Option.noConfusion hp

theorem dictGet_nil (k : String) : dictGet [] k = none := rfl

theorem dictGet_map_stringify (d : Doc) (k : String) :
    dictGet (d.map (fun kv => (kv.1, stringifyTop kv.2))) k =
      (dictGet d k).map stringifyTop := by
  induction d with
  | nil => rfl
  | cons kv tl ih =>
    simp only [List.map_cons, dictGet, List.find?]
    cases hb : (kv.1 == k)
    · simpa only [dictGet] using ih
    · rfl

theorem dictGet_overwriteMap_self (d : Doc) (k : String) (v : BVal)
    (hany : d.any (fun kv => kv.1 == k) = true) :
    dictGet (d.map (fun kv => if kv.1 == k then (k, v) else kv)) k = some v := by
  induction d with
  | nil => simp at hany
  | cons kv tl ih =>
    simp only [List.map_cons, dictGet, List.find?]
    by_cases hb : (kv.1 == k) = true
    · rw [if_pos hb]
      simp
    · rw [if_neg hb]
      simp only [List.any_cons, Bool.or_eq_true] at hany
      rcases hany with hany | hany
      · exact absurd hany hb
      · cases hkk : (kv.1 == k)
        · simpa only [dictGet] using ih hany
        · exact absurd hkk hb

theorem dictGet_overwriteMap_ne (d : Doc) (k k2 : String) (v : BVal) (hne : k ≠ k2) :
    dictGet (d.map (fun kv => if kv.1 == k2 then (k2, v) else kv)) k = dictGet d k := by
  have hk : (k2 == k) = false := by
    cases hkk : (k2 == k)
    · rfl
    · have heq : k2 = k := by simpa using hkk
      exact absurd heq.symm hne
  induction d with
  | nil => rfl
  | cons kv tl ih =>
    simp only [List.map_cons, dictGet, List.find?]
    by_cases hb : (kv.1 == k2) = true
    · rw [if_pos hb]
      have hkveq : kv.1 = k2 := by simpa using hb
      have hkvk : (kv.1 == k) = false := by
        rw [hkveq]
        exact hk
      simp only [hk, hkvk]
      simpa only [dictGet] using ih
    · rw [if_neg hb]
      cases hkk : (kv.1 == k)
      · simpa only [dictGet] using ih
      · rfl

theorem dictGet_append_single_hit (d : Doc) (k : String) (v : BVal)
    (hno : d.any (fun kv => kv.1 == k) = false) :
    dictGet (d ++ [(k, v)]) k = some v := by
  induction d with
  | nil => simp [dictGet, List.find?]
  | cons kv tl ih =>
    simp only [List.any_cons, Bool.or_eq_false_iff] at hno
    simp only [List.cons_append, dictGet, List.find?, hno.1]
    simpa only [dictGet] using ih hno.2

theorem dictGet_append_single_ne (d : Doc) (k k2 : String) (v : BVal) (hne : k ≠ k2) :
    dictGet (d ++ [(k2, v)]) k = dictGet d k := by
  have hk : (k2 == k) = false := by
    cases hkk : (k2 == k)
    · rfl
    · have heq : k2 = k := by simpa using hkk
      exact absurd heq.symm hne
  induction d with
  | nil => simp [dictGet, List.find?, hk]
  | cons kv tl ih =>
    simp only [List.cons_append, dictGet, List.find?]
    cases hkk : (kv.1 == k)
    · simpa only [dictGet] using ih
    · rfl

theorem dictGet_set_self (d : Doc) (k : String) (v : BVal) :
    dictGet (dictSet d k v) k = some v := by
  unfold dictSet
  by_cases hany : d.any (fun kv => kv.1 == k) = true
  · rw [if_pos hany]
    exact dictGet_overwriteMap_self d k v hany
  · rw [if_neg hany]
    exact dictGet_append_single_hit d k v
      (by simp only [Bool.not_eq_true] at hany; exact hany)

theorem dictGet_set_ne (d : Doc) (k k2 : String) (v : BVal) (hne : k ≠ k2) :
    dictGet (dictSet d k2 v) k = dictGet d k := by
  unfold dictSet
  by_cases hany : d.any (fun kv => kv.1 == k2) = true
  · rw [if_pos hany]
    exact dictGet_overwriteMap_ne d k k2 v hne
  · rw [if_neg hany]
    exact dictGet_append_single_ne d k k2 v hne

theorem dictGet_remove_self (d : Doc) (k : String) :
    dictGet (dictRemove d k) k = none := by
  induction d with
  | nil => rfl
  | cons kv tl ih =>
    simp only [dictRemove, List.filter]
    cases hb : (kv.1 == k)
    · simp only [hb, Bool.not_false]
      simp only [dictGet, List.find?, hb]
      simpa only [dictRemove, dictGet] using ih
    · simp only [hb, Bool.not_true]
      simpa only [dictRemove, dictGet] using ih

theorem dictGet_remove_ne (d : Doc) (k k2 : String) (hne : k ≠ k2) :
    dictGet (dictRemove d k2) k = dictGet d k := by
  induction d with
  | nil => rfl
  | cons kv tl ih =>
    simp only [dictRemove, List.filter]
    cases hb : (kv.1 == k2)
    · simp only [Bool.not_false]
      simp only [dictGet, List.find?]
      cases hkk : (kv.1 == k)
      · simpa only [dictRemove, dictGet] using ih
      · rfl
    · simp only [Bool.not_true]
      have hkveq : kv.1 = k2 := by simpa using hb
      have hkvk : (kv.1 == k) = false := by
        rw [hkveq]
        cases hkk : (k2 == k)
        · rfl
        · have heq : k2 = k := by simpa using hkk
          exact absurd heq.symm hne
      have := ih
      simp only [dictRemove, dictGet] at this
      simp only [dictGet, List.find?, hkvk] at *
      exact this

theorem ne_nil_of_dictGet {d : Doc} {k : String} {v : BVal}
    (h : dictGet d k = some v) : d ≠ [] := by
  intro he
  subst he
  exact Option.noConfusion h

theorem serializeDict_of_ne_nil {d : Doc} (h : d ≠ []) :
    serializeDict d = serializeCore d := by
  unfold serializeDict
  rw [if_neg (by simpa using h)]

theorem serializeCore_eq {d : Doc} {v : BVal} (hv : dictGet d "_id" = some v)
    (ht : truthy v = true) :
    serializeCore d =
      (dictSet (dictRemove d "_id") "id" (.vStr (pyStr v))).map
        (fun kv => (kv.1, stringifyTop kv.2)) := by
  unfold serializeCore
  rw [hv]
  simp [ht]

theorem dictGet_serializeCore_id {d : Doc} {v : BVal}
    (hv : dictGet d "_id" = some v) (ht : truthy v = true) :
    dictGet (serializeCore d) "id" = some (.vStr (pyStr v)) := by
  rw [serializeCore_eq hv ht, dictGet_map_stringify, dictGet_set_self]
  rfl

theorem dictGet_serializeCore_under {d : Doc} {v : BVal}
    (hv : dictGet d "_id" = some v) (ht : truthy v = true) :
    dictGet (serializeCore d) "_id" = none := by
  rw [serializeCore_eq hv ht, dictGet_map_stringify,
    dictGet_set_ne _ _ _ _ (by decide), dictGet_remove_self]
  rfl

theorem dictGet_serializeCore_other {d : Doc} {v w : BVal} {k : String}
    (hv : dictGet d "_id" = some v) (ht : truthy v = true)
    (h1 : k ≠ "_id") (h2 : k ≠ "id") (hw : dictGet d k = some w) :
    dictGet (serializeCore d) k = some (stringifyTop w) := by
  rw [serializeCore_eq hv ht, dictGet_map_stringify,
    dictGet_set_ne _ _ _ _ h2, dictGet_remove_ne _ _ _ h1, hw]
  rfl

theorem bvalBeq_vOid_true {v : BVal} {o : ObjectId}
    (h : bvalBeq v (.vOid o) = true) : v = .vOid o := by
  cases v with
  | vOid a => exact congrArg BVal.vOid (of_decide_eq_true h)
  | vNull => exact Bool.noConfusion h
  | vBool b => exact Bool.noConfusion h
  | vNum q => exact Bool.noConfusion h
  | vStr s => exact Bool.noConfusion h
  | vList xs => exact Bool.noConfusion h
  | vDoc xs => exact Bool.noConfusion h

theorem bvalBeq_vStr_true {v : BVal} {c : String}
    (h : bvalBeq v (.vStr c) = true) : v = .vStr c := by
  cases v with
  | vStr s =>
    have h2 : (s == c) = true := h
    exact congrArg BVal.vStr (eq_of_beq h2)
  | vNull => exact Bool.noConfusion h
  | vBool b => exact Bool.noConfusion h
  | vNum q => exact Bool.noConfusion h
  | vOid a => exact Bool.noConfusion h
  | vList xs => exact Bool.noConfusion h
  | vDoc xs => exact Bool.noConfusion h

theorem findOne_single_key {store : List Doc} {k : String} {w : BVal} {d : Doc}
    (h : findOne store [(k, w)] = some d) :
    d ∈ store ∧ ∃ v, dictGet d k = some v ∧ bvalBeq v w = true := by
  refine ⟨List.mem_of_find?_eq_some h, ?_⟩
  have hm := List.find?_some h
  unfold matchesFilter at hm
  simp only [List.all_cons, List.all_nil, Bool.and_true] at hm
  cases hv : dictGet d k with
  | none => rw [hv] at hm; exact Bool.noConfusion hm
  | some v => rw [hv] at hm; exact ⟨v, rfl, hm⟩

/-- C3, counterexample: the claim says a store-native identifier anywhere in
the structure, including inside nested values, is stringified; serializing
nestedDocEx keeps the identifier nested inside the related sub-document as an
identifier — the field equals no sub-document holding a string there. -/
theorem c3_serialize_counterexample :
    dictGet (serializeDict nestedDocEx) "related" =
      some (.vDoc [("ref", .vOid oidEx2)]) ∧
    ∀ s : String, BVal.vDoc [("ref", .vOid oidEx2)] ≠ .vDoc [("ref", .vStr s)] := by
  constructor
  · rfl
  · intro s h
    simp at h

/-- C3, amended: _serialize maps a None or empty input to itself, renames a
primary key holding an identifier to id and stringifies it, and stringifies
identifiers held in top-level fields only; any other top-level value —
including arrays and sub-documents, whatever they contain — is kept exactly
as it is (no deep scan). -/
theorem c3_serialize_top_level_only :
    pySerialize none = none ∧
    serializeDict [] = [] ∧
    (∀ xs : Doc, stringifyTop (.vDoc xs) = .vDoc xs) ∧
    (∀ xs : List BVal, stringifyTop (.vList xs) = .vList xs) ∧
    ∀ (d : Doc) (oid : ObjectId), dictGet d "_id" = some (.vOid oid) →
      dictGet (serializeDict d) "id" = some (.vStr (oidToString oid)) ∧
      dictGet (serializeDict d) "_id" = none ∧
      ∀ (k : String) (w : BVal), k ≠ "_id" → k ≠ "id" → dictGet d k = some w →
        dictGet (serializeDict d) k = some (stringifyTop w) := by
  refine ⟨rfl, rfl, fun _ => rfl, fun _ => rfl, fun d oid hid => ?_⟩
  have hd : d ≠ [] := ne_nil_of_dictGet hid
  rw [serializeDict_of_ne_nil hd]
  exact ⟨dictGet_serializeCore_id hid rfl,
    dictGet_serializeCore_under hid rfl,
    fun k w h1 h2 hw => dictGet_serializeCore_other hid rfl h1 h2 hw⟩

/-- Witness for the amended serialization claim at a concrete document. -/
theorem c3_serialize_top_level_only_witness :
    dictGet (serializeDict [("_id", .vOid oidEx3), ("title", .vStr "X")]) "id" =
      some (.vStr (oidToString oidEx3)) :=
  (c3_serialize_top_level_only.2.2.2.2
    [("_id", .vOid oidEx3), ("title", .vStr "X")] oidEx3 rfl).1

/-- C9, counterexample: an uppercase 24-character hex string is structurally
valid (ObjectId construction accepts it), the record with that key is found,
but the serialized id comes back lowercased, a different string. -/
theorem c9_roundtrip_counterexample :
    parseObjectId "AABBCCDDEEFF001122334455" = some oidUpperEx ∧
    findOne [[("_id", .vOid oidUpperEx)]] [("_id", .vOid oidUpperEx)] =
      some [("_id", .vOid oidUpperEx)] ∧
    dictGet (serializeDict [("_id", .vOid oidUpperEx)]) "id" =
      some (.vStr "aabbccddeeff001122334455") ∧
    ("aabbccddeeff001122334455" : String) ≠ "AABBCCDDEEFF001122334455" :=
  ⟨rfl, rfl, rfl, by decide⟩

/-- C9, amended: for every structurally valid identifier string in canonical
lowercase form, parsing it, fetching the record under that primary key
(assuming one is found) and serializing yields an id field equal to the same
string; an uppercase-digit string is accepted too but comes back lowercased. -/
theorem c9_roundtrip_canonical (s : String) (oid : ObjectId) (store : List Doc)
    (d : Doc) (hparse : parseObjectId s = some oid)
    (hcanon : ∀ c ∈ s.data, isCanonHexDigit c = true)
    (hfind : findOne store [("_id", .vOid oid)] = some d) :
    dictGet (serializeDict d) "id" = some (.vStr s) := by
  obtain ⟨hmem, v, hv, hb⟩ := findOne_single_key hfind
  have hid : dictGet d "_id" = some (.vOid oid) := by
    rw [hv, bvalBeq_vOid_true hb]
  have hd : d ≠ [] := ne_nil_of_dictGet hid
  rw [serializeDict_of_ne_nil hd, dictGet_serializeCore_id hid rfl]
  rw [show pyStr (.vOid oid) = oidToString oid from rfl,
    oidToString_parseObjectId hparse hcanon]

/-- Witness for the amended round-trip claim at a concrete canonical id. -/
theorem c9_roundtrip_canonical_witness :
    dictGet (serializeDict [("_id", .vOid oidEx1)]) "id" =
      some (.vStr "000102030405060708090a0b") :=
  c9_roundtrip_canonical "000102030405060708090a0b" oidEx1
    [[("_id", .vOid oidEx1)]] [("_id", .vOid oidEx1)] rfl (by decide) rfl

theorem matchesFilter_single_true {d : Doc} {k : String} {w : BVal}
    (h : matchesFilter d [(k, w)] = true) :
    ∃ v, dictGet d k = some v ∧ bvalBeq v w = true := by
  unfold matchesFilter at h
  simp only [List.all_cons, List.all_nil, Bool.and_true] at h
  cases hv : dictGet d k with
  | none => rw [hv] at h; exact Bool.noConfusion h
  | some v => rw [hv] at h; exact ⟨v, rfl, h⟩

/-- C4: for every slug, GET /api/products/slug returns the single matching
product wire record when the store finds one, a 404 not-found outcome when no
document matches, and never turns not-found into a 500; a 500 arises only
from a store failure. -/
theorem c4_get_product_outcomes (docs : List Doc) (slug : String) :
    (∀ e, get_product (.error e) slug = .httpError 500 e) ∧
    (findOne docs [("slug", .vStr slug)] = none →
      get_product (.ok docs) slug = .httpError 404 "Product not found") ∧
    (∀ d, findOne docs [("slug", .vStr slug)] = some d →
      get_product (.ok docs) slug = .ok (serializeDict d)) ∧
    (∀ detail, get_product (.ok docs) slug ≠ .httpError 500 detail) := by
  refine ⟨fun e => rfl, ?_, ?_, ?_⟩
  · intro hnone
    unfold get_product
    dsimp only
    rw [hnone]
  · intro d hd
    unfold get_product
    dsimp only
    rw [hd]
    dsimp only
    obtain ⟨hmem, v, hv, hb⟩ := findOne_single_key hd
    have hne : d ≠ [] := ne_nil_of_dictGet hv
    rw [if_neg (by simpa using hne)]
  · intro detail hcontra
    unfold get_product at hcontra
    dsimp only at hcontra
    cases hfo : findOne docs [("slug", .vStr slug)] with
    | none =>
      rw [hfo] at hcontra
      simp at hcontra
    | some d =>
      rw [hfo] at hcontra
      dsimp only at hcontra
      split_ifs at hcontra
      all_goals simp at hcontra

/-- Witness for the get-product claim at a concrete one-document store. -/
theorem c4_get_product_outcomes_witness :
    get_product (.ok [[("slug", .vStr "living-water")]]) "living-water" =
      .ok (serializeDict [("slug", .vStr "living-water")]) :=
  (c4_get_product_outcomes [[("slug", .vStr "living-water")]] "living-water").2.2.1
    [("slug", .vStr "living-water")] rfl

/-- C7, counterexample: with the category query parameter supplied as the
empty string, the filter is dropped and the listing returns a record whose
category field is Water, which does not equal the supplied string. -/
theorem c7_category_filter_counterexample :
    list_products (.ok [[("category", .vStr "Water")]]) none (some "") =
      .ok [[("category", .vStr "Water")]] ∧
    ("Water" : String) ≠ "" :=
  ⟨rfl, by decide⟩

/-- C7, amended: for every NON-EMPTY category string supplied as the category
query parameter, the listing returns only (serializations of) records whose
category field equals that string exactly; an empty category string drops the
filter instead. -/
theorem c7_category_exact_match (docs : List Doc) (limit : Option Nat)
    (c : String) (hc : c ≠ "") (out : List Doc)
    (hout : list_products (.ok docs) limit (some c) = .ok out) :
    ∀ d ∈ out, ∃ r ∈ docs, dictGet r "category" = some (.vStr c) ∧
      d = serializeDict r := by
  unfold list_products at hout
  have hcb : (c == "") = false := by
    cases hcc : (c == "")
    · rfl
    · exact absurd (eq_of_beq hcc) hc
  simp only [hcb, Bool.false_eq_true, if_false] at hout
  have hout2 : (get_documents docs [("category", .vStr c)] limit).map serializeDict = out := by
    cases hout
    rfl
  intro d hd
  rw [← hout2] at hd
  obtain ⟨r, hr, rfl⟩ := List.mem_map.mp hd
  have hrf : r ∈ docs.filter (fun x => matchesFilter x [("category", .vStr c)]) := by
    unfold get_documents at hr
    cases limit with
    | none => exact hr
    | some n => exact List.mem_of_mem_take hr
  obtain ⟨hrd, hrm⟩ := List.mem_filter.mp hrf
  obtain ⟨v, hv, hb⟩ := matchesFilter_single_true hrm
  exact ⟨r, hrd, by rw [hv, bvalBeq_vStr_true hb], rfl⟩

/-- Witness for the amended category-filter claim at a concrete store. -/
theorem c7_category_exact_match_witness :
    ∃ r ∈ [[("category", BVal.vStr "Water")]],
      dictGet r "category" = some (.vStr "Water") ∧
      [("category", BVal.vStr "Water")] = serializeDict r :=
  c7_category_exact_match [[("category", .vStr "Water")]] none "Water"
    (by decide) [[("category", .vStr "Water")]] rfl
    [("category", .vStr "Water")] (by simp)

/-- C10: on GET /api/products a category query parameter equal to the empty
string is treated the same as an absent parameter — the filter is dropped and
the full listing is returned. -/
theorem c10_empty_category_same_as_absent (store : Except String (List Doc))
    (limit : Option Nat) :
    list_products store limit (some "") = list_products store limit none := by
  cases store with
  | error e => rfl
  | ok docs => rfl

/-- C1: for every title string the derived slug (used when the caller supplies
no slug on POST /api/products) equals the title lower-cased, then trimmed of
leading/trailing whitespace, then with every space replaced by a hyphen, then
with every literal ampersand replaced by the word and; it is a pure total
function of the title, and "Air & Surface Pro" yields "air-and-surface-pro". -/
theorem c1_derived_slug_matches_spec :
    (∀ title : String, derivedSlug title = specSlugRule title) ∧
    derivedSlug "Air & Surface Pro" = "air-and-surface-pro" :=
  ⟨fun _ => rfl, by decide⟩

theorem ensureSlug_fields (p : ProductIn) :
    (ensureSlug p).title = p.title ∧ (ensureSlug p).price = p.price ∧
    (ensureSlug p).category = p.category := by
  unfold ensureSlug
  cases p.slug with
  | none => exact ⟨rfl, rfl, rfl⟩
  | some s =>
    dsimp only
    by_cases hs : (s == "") = true
    · rw [if_pos hs]
      exact ⟨rfl, rfl, rfl⟩
    · rw [if_neg hs]
      exact ⟨rfl, rfl, rfl⟩

/-- C2: on create-product, the required-field constraints — title a non-empty
string, price a non-negative number, category a non-empty string — are checked
before any store interaction: a violating input fails with a ValidationError
(surfaced as a 500 carrying its text) and no document is inserted. -/
theorem c2_validation_before_store (store : List Doc) (p : ProductIn)
    (oid : ObjectId) (h : p.title = "" ∨ p.price < 0 ∨ p.category = "") :
    (create_product store p oid).1 = store ∧
    ∃ fields, fields ≠ [] ∧
      (create_product store p oid).2 = .httpError 500 (validationMessage fields) := by
  have hfields : productSchemaCheck (ensureSlug p) ≠ [] := by
    obtain ⟨h1, h2, h3⟩ := ensureSlug_fields p
    unfold productSchemaCheck
    rw [h1, h2, h3]
    rcases h with h | h | h
    · simp [h]
    · simp [h, List.append_eq_nil]
    · simp [h, List.append_eq_nil]
  have hval : productSchemaValidate (ensureSlug p) =
      .error (productSchemaCheck (ensureSlug p)) := by
    unfold productSchemaValidate
    rw [if_neg hfields]
  unfold create_product
  dsimp only
  rw [hval]
  exact ⟨rfl, productSchemaCheck (ensureSlug p), hfields, rfl⟩

/-- Witness for the validation claim: an empty title is rejected and the
store is left untouched. -/
theorem c2_validation_before_store_witness :
    (create_product [] badInputEx oidEx1).1 = [] ∧
    ∃ fields, fields ≠ [] ∧
      (create_product [] badInputEx oidEx1).2 =
        .httpError 500 (validationMessage fields) :=
  c2_validation_before_store [] badInputEx oidEx1 (Or.inl rfl)

/-- C5, counterexample: the claim says a supplied slug is stored unchanged;
supplying the empty string as the slug stores the derived slug instead. -/
theorem c5_slug_counterexample :
    emptySlugInputEx.slug = some "" ∧
    (create_product [] emptySlugInputEx oidEx2).1 =
      [toStoredDoc { emptySlugInputEx with slug := some "hydration-system" } oidEx2] ∧
    (some "hydration-system" : Option String) ≠ some "" :=
  ⟨rfl, rfl, by decide⟩

/-- C5, amended: the slug is derived from the title exactly when the supplied
slug field is falsy — absent or the empty string; a supplied non-empty slug
is stored unchanged. -/
theorem c5_slug_kept_or_derived (store : List Doc) (p : ProductIn)
    (oid : ObjectId) (hvalid : productSchemaCheck p = []) :
    (∀ s, p.slug = some s → s ≠ "" →
      (create_product store p oid).1 = store ++ [toStoredDoc p oid]) ∧
    ((p.slug = none ∨ p.slug = some "") →
      (create_product store p oid).1 =
        store ++ [toStoredDoc { p with slug := some (derivedSlug p.title) } oid]) := by
  constructor
  · intro s hs hne
    have hes : ensureSlug p = p := by
      unfold ensureSlug
      rw [hs]
      dsimp only
      rw [if_neg (by simpa using hne)]
    have hval : productSchemaValidate p = .ok p := by
      unfold productSchemaValidate
      rw [if_pos hvalid]
    unfold create_product
    rw [hes]
    dsimp only
    rw [hval]
    dsimp only
    rw [parseObjectId_oidToString oid]
  · intro hcase
    have hes : ensureSlug p = { p with slug := some (derivedSlug p.title) } := by
      unfold ensureSlug
      rcases hcase with hn | he
      · rw [hn]
      · rw [he]
        rfl
    have hvalid2 : productSchemaCheck { p with slug := some (derivedSlug p.title) } = [] :=
      hvalid
    have hval : productSchemaValidate { p with slug := some (derivedSlug p.title) } =
        .ok { p with slug := some (derivedSlug p.title) } := by
      unfold productSchemaValidate
      rw [if_pos hvalid2]
    unfold create_product
    rw [hes]
    dsimp only
    rw [hval]
    dsimp only
    rw [parseObjectId_oidToString oid]

/-- Witness for the amended slug claim: a supplied non-empty slug is stored
unchanged. -/
theorem c5_slug_kept_or_derived_witness :
    (create_product [] (sampleProducts.headD badInputEx) oidEx3).1 =
      [toStoredDoc (sampleProducts.headD badInputEx) oidEx3] :=
  (c5_slug_kept_or_derived [] (sampleProducts.headD badInputEx) oidEx3 rfl).1
    "air-and-surface-pro" rfl (by decide)

/-- C6: in the create-product input, in_stock defaults to true and brand
defaults to Vollara exactly when the field is entirely absent from the input:
a supplied in_stock value — in particular false — and a supplied brand value
— in particular the empty string — are kept and never replaced by the
defaults. -/
theorem c6_defaults_absent_only (raw : RawProductIn) (p : ProductIn)
    (h : parseProductIn raw = .ok p) :
    (raw.in_stock = none → p.in_stock = true) ∧
    (∀ b, raw.in_stock = some b → p.in_stock = b) ∧
    (raw.brand = none → p.brand = some "Vollara") ∧
    (∀ b, raw.brand = some b → p.brand = b) ∧
    (raw.brand = some (some "") → p.brand = some "") := by
  unfold parseProductIn at h
  cases ht : raw.title with
  | none => rw [ht] at h; exact Except.noConfusion h
  | some t =>
    cases hpr : raw.price with
    | none => rw [ht, hpr] at h; exact Except.noConfusion h
    | some pr =>
      cases hc : raw.category with
      | none => rw [ht, hpr, hc] at h; exact Except.noConfusion h
      | some c =>
        rw [ht, hpr, hc] at h
        dsimp only at h
        injection h with h2
        subst h2
        refine ⟨fun hi => by simp [hi], fun b hb => by simp [hb], fun hb => by rw [hb],
          fun b hb => by rw [hb], fun hb => by rw [hb]⟩

/-- Witness for the defaults claim: a body holding only the required fields
takes both defaults, and a body supplying in_stock false keeps it. -/
theorem c6_defaults_absent_only_witness :
    parseProductIn rawInputEx = .ok parsedInputEx ∧
    parsedInputEx.in_stock = true ∧ parsedInputEx.brand = some "Vollara" ∧
    ({ parsedInputEx with in_stock := false } : ProductIn).in_stock = false :=
  ⟨rfl, (c6_defaults_absent_only rawInputEx parsedInputEx rfl).1 rfl,
    (c6_defaults_absent_only rawInputEx parsedInputEx rfl).2.2.1 rfl,
    (c6_defaults_absent_only { rawInputEx with in_stock := some false }
      { parsedInputEx with in_stock := false } rfl).2.1 false rfl⟩

/-- C8: with an empty collection at startup the seeding routine inserts
exactly 3 records with slugs air-and-surface-pro, freshair-personal and
living-water; with a non-empty collection it inserts nothing; and a failure
of the availability check, the count or an insert is swallowed — the routine
still returns a collection state (here: unchanged, or the documents inserted
before the failing insert) and never blocks startup. -/
theorem c8_seeding (env : SeedEnv) (o1 o2 o3 : ObjectId) (rest : List ObjectId) :
    (env.dbConnected = true → env.countFails = false → env.insertFailsAt = none →
      env.docs = [] →
      (seed_products env (o1 :: o2 :: o3 :: rest)).length = 3 ∧
      (seed_products env (o1 :: o2 :: o3 :: rest)).map (fun d => dictGet d "slug") =
        [some (.vStr "air-and-surface-pro"), some (.vStr "freshair-personal"),
         some (.vStr "living-water")]) ∧
    (env.dbConnected = true → env.countFails = false → env.docs ≠ [] →
      seed_products env (o1 :: o2 :: o3 :: rest) = env.docs) ∧
    ((env.dbConnected = false ∨ env.countFails = true) →
      seed_products env (o1 :: o2 :: o3 :: rest) = env.docs) ∧
    (env.dbConnected = true → env.countFails = false →
      env.insertFailsAt = some 0 → env.docs = [] →
      seed_products env (o1 :: o2 :: o3 :: rest) = env.docs) := by
  obtain ⟨dbc, cf, ifa, docs⟩ := env
  refine ⟨?_, ?_, ?_, ?_⟩
  · intro h1 h2 h3 h4
    dsimp only at h1 h2 h3 h4
    subst h1; subst h2; subst h3; subst h4
    exact ⟨rfl, rfl⟩
  · intro h1 h2 hd
    dsimp only at h1 h2 hd
    subst h1; subst h2
    have hlen : (docs.length == 0) = false := by
      cases docs with
      | nil => exact absurd rfl hd
      | cons a as => rfl
    simp [seed_products, hlen]
  · intro hcase
    dsimp only at hcase
    rcases hcase with h1 | h1
    · subst h1; rfl
    · subst h1
      cases dbc <;> rfl
  · intro h1 h2 h3 h4
    dsimp only at h1 h2 h3 h4
    subst h1; subst h2; subst h3; subst h4
    rfl

/-- Witness for the seeding claim: seeding an empty collection yields the
three sample slugs. -/
theorem c8_seeding_witness :
    (seed_products ⟨true, false, none, []⟩ [oidEx1, oidEx2, oidEx3]).map
      (fun d => dictGet d "slug") =
      [some (.vStr "air-and-surface-pro"), some (.vStr "freshair-personal"),
       some (.vStr "living-water")] :=
  ((c8_seeding ⟨true, false, none, []⟩ oidEx1 oidEx2 oidEx3 []).1 rfl rfl rfl rfl).2

end Vollara
